import Mathlib

/-!
Shallow embedding of the earthquake ELT pipeline
(`src/dags/earthquake_etl_dag.py`): the loader `load_raw_data` and the
transform SQL statement `transform_sql`, together with the stores they
act on (`raw_earthquakes`, `load_history`, `analytics_earthquakes`).

Timestamps are modelled as integers (epoch seconds for store timestamps,
epoch milliseconds for the feed's `properties.time`), SQL `decimal`
values as rationals, and the JSON payload of a feed feature as a record
holding the fields the pipeline reads.
-/

namespace EarthquakeELT

/-- A feed feature's payload, as stored verbatim in `raw_json`: the
fields the pipeline reads out of the GeoJSON document.  Coordinates are
`[longitude, latitude, depth_km]` in that order. -/
structure FeaturePayload where
  id : String
  time : Int
  mag : ℚ
  magType : String
  place : String
  longitude : ℚ
  latitude : ℚ
  depth : ℚ
deriving DecidableEq, Repr

/-- A row of the `raw_earthquakes` table:
`(earthquake_id PRIMARY KEY, raw_json, api_source, extracted_at DEFAULT now())`. -/
structure RawRow where
  earthquake_id : String
  raw_json : FeaturePayload
  api_source : String
  extracted_at : Int
deriving DecidableEq, Repr

/-- A row of the `load_history` table:
`(load_date, records_loaded, status, error_message NULLABLE)`. -/
structure LoadAttempt where
  load_date : Int
  records_loaded : Nat
  status : String
  error_message : Option String
deriving DecidableEq, Repr

/-- A row of the `analytics_earthquakes` table (schema of §3/§6). -/
structure AnalyticsRecord where
  earthquake_id : String
  occurred_at : Int
  latitude : ℚ
  longitude : ℚ
  depth_km : ℚ
  magnitude : ℚ
  magnitude_type : String
  place : String
  country : String
  region : String
  magnitude_category : String
  depth_category : String
  risk_level : String
  day_of_week : String
  hour_of_day : Int
  transformed_at : Int
deriving DecidableEq, Repr

/- ## String helpers (SQL `LIKE '%pat%'` and `SPLIT_PART`) -/

/-- Does the pattern occur at the head of the character list?  Used to
embed SQL `LIKE '%pat%'` (exact, case-sensitive matching). -/
def leadMatch : List Char → List Char → Bool
  | [], _ => true
  | _ :: _, [] => false
  | p :: ps, c :: cs => p == c && leadMatch ps cs

/-- Does `pat` occur as a contiguous substring of the character list? -/
def containsSub (pat : List Char) : List Char → Bool
  | [] => pat.isEmpty
  | c :: cs => leadMatch pat (c :: cs) || containsSub pat cs

/-- SQL `s LIKE '%pat%'`: case-sensitive substring containment. -/
def likeContains (s pat : String) : Bool :=
  containsSub pat.data s.data

/-- Split a character list at every comma, keeping empty fields, as
PostgreSQL `SPLIT_PART(s, ',', k)` views its input.  Never returns `[]`:
a comma-free input yields the single field `[l]`. -/
def splitOnComma : List Char → List (List Char)
  | [] => [[]]
  | c :: cs =>
    match splitOnComma cs with
    | [] => [[]]
    | f :: rest => if c = ',' then [] :: f :: rest else (c :: f) :: rest

/-- Last element of a list of fields (the `-1` field index of
`SPLIT_PART`); the empty field list does not arise. -/
def lastField : List (List Char) → List Char
  | [] => []
  | [f] => f
  | _ :: f :: rest => lastField (f :: rest)

/-- SQL `SPLIT_PART(place, ',', -1)`: the last comma-separated field of
the place string, with no whitespace trimming (line 172 of the DAG). -/
def regionOf (place : String) : String :=
  ⟨lastField (splitOnComma place.data)⟩

/- ## Derived-field classification (the CASE expressions of `transform_sql`) -/

/-- The country CASE (lines 163-169): first match wins, in the fixed
order Mexico, California, Japan, Chile; otherwise `Other`. -/
def countryOf (place : String) : String :=
  if likeContains place "Mexico" then "Mexico"
  else if likeContains place "California" then "United States"
  else if likeContains place "Japan" then "Japan"
  else if likeContains place "Chile" then "Chile"
  else "Other"

/-- The magnitude CASE (lines 175-181). -/
def magnitudeCategory (mag : ℚ) : String :=
  if mag < 3 then "Minor"
  else if mag < 5 then "Light"
  else if mag < 6 then "Moderate"
  else if mag < 7 then "Strong"
  else "Major"

/-- The depth CASE (lines 184-188). -/
def depthCategory (depth : ℚ) : String :=
  if depth < 70 then "Shallow"
  else if depth < 300 then "Intermediate"
  else "Deep"

/-- The risk CASE (lines 191-196). -/
def riskLevel (mag depth : ℚ) : String :=
  if 6 ≤ mag ∧ depth < 70 then "High"
  else if 5 ≤ mag then "Medium"
  else "Low"

/-- SQL `to_timestamp((...->>'time')::bigint / 1000)`: bigint division
truncates toward zero. -/
def occurredAt (timeMs : Int) : Int :=
  Int.tdiv timeMs 1000

/-- Blank-padded day names (`TO_CHAR(ts, 'Day')` pads to width 9),
indexed from 1970-01-01, a Thursday. -/
def dayNames : List String :=
  ["Thursday ", "Friday   ", "Saturday ", "Sunday   ",
   "Monday   ", "Tuesday  ", "Wednesday"]

/-- SQL `TO_CHAR(to_timestamp(...), 'Day')` at UTC. -/
def dayOfWeekOf (t : Int) : String :=
  dayNames.getD ((t / 86400) % 7).toNat ""

/-- SQL `EXTRACT(HOUR FROM to_timestamp(...))` at UTC. -/
def hourOfDay (t : Int) : Int :=
  (t % 86400) / 3600

/-- The SELECT list of `transform_sql`: the analytics row derived from
one raw payload.  `transformed_at` takes the store default `now`. -/
def derive (p : FeaturePayload) (now : Int) : AnalyticsRecord :=
  { earthquake_id := p.id
    occurred_at := occurredAt p.time
    latitude := p.latitude
    longitude := p.longitude
    depth_km := p.depth
    magnitude := p.mag
    magnitude_type := p.magType
    place := p.place
    country := countryOf p.place
    region := regionOf p.place
    magnitude_category := magnitudeCategory p.mag
    depth_category := depthCategory p.depth
    risk_level := riskLevel p.mag p.depth
    day_of_week := dayOfWeekOf (occurredAt p.time)
    hour_of_day := hourOfDay (occurredAt p.time)
    transformed_at := now }

/- ## Loader (`load_raw_data`) -/

/-- Does the raw store already hold a row with this `earthquake_id`? -/
def hasRawId (store : List RawRow) (id : String) : Bool :=
  store.any (fun r => r.earthquake_id == id)

/-- One `INSERT ... ON CONFLICT (earthquake_id) DO NOTHING` (lines
94-98), returning the new store and `cursor.rowcount` (1 if inserted,
0 if the id already existed). -/
def insertRawNoConflict (store : List RawRow) (r : RawRow) :
    List RawRow × Nat :=
  if hasRawId store r.earthquake_id then (store, 0)
  else (store ++ [r], 1)

/-- The loader's insert loop over `data['features']` (lines 89-100),
threading the store through the inserts and accumulating
`loaded_count` from the per-insert rowcounts.  `now` is the store's
`extracted_at` default for newly inserted rows. -/
def loadBatch (store : List RawRow) (features : List FeaturePayload)
    (now : Int) : List RawRow × Nat :=
  match features with
  | [] => (store, 0)
  | f :: rest =>
    let step := insertRawNoConflict store ⟨f.id, f, "USGS API", now⟩
    let next := loadBatch step.1 rest now
    (next.1, step.2 + next.2)

/-- The XCom value pulled by the loader: absent, a document without a
`features` key (including an empty document), or a features list. -/
inductive XComData where
  | missing
  | noFeatures
  | features (fs : List FeaturePayload)
deriving DecidableEq, Repr

/-- Outcome of one loader invocation: the raw store, the load-history
ledger, and the returned count or the propagated exception message. -/
structure LoadResult where
  store : List RawRow
  ledger : List LoadAttempt
  outcome : Except String Nat
deriving Repr

/-- Loader `load_raw_data` (lines 68-128).  `loadError` injects a storage
failure of the batch transaction (`some e` means the batch aborts with
exception message `e`; the single `conn.commit()` means no partial rows
persist), and `ledgerWriteFails` injects a failure of the FAILED
ledger write, which the bare `except: pass` swallows before the
original exception is re-raised. -/
def load_raw_data (data : XComData) (store : List RawRow)
    (ledger : List LoadAttempt) (now : Int)
    (loadError : Option String) (ledgerWriteFails : Bool) : LoadResult :=
  match data with
  | .missing => ⟨store, ledger, .ok 0⟩
  | .noFeatures => ⟨store, ledger, .ok 0⟩
  | .features fs =>
    match loadError with
    | none =>
      let p := loadBatch store fs now
      ⟨p.1, ledger ++ [⟨now, p.2, "SUCCESS", none⟩], .ok p.2⟩
    | some e =>
      let ledger' :=
        if ledgerWriteFails then ledger
        else ledger ++ [⟨now, 0, "FAILED", some e⟩]
      ⟨store, ledger', .error e⟩

/- ## Transform Engine (`transform_sql`) -/

/-- Does the analytics store already hold a row with this id? -/
def hasAnalyticsId (store : List AnalyticsRecord) (id : String) : Bool :=
  store.any (fun r => r.earthquake_id == id)

/-- Upsert `ON CONFLICT (earthquake_id) DO UPDATE SET transformed_at =
NOW()` (lines 204-205): on conflict only `transformed_at` changes;
otherwise the derived row is appended. -/
def upsertAnalytics (store : List AnalyticsRecord)
    (r : AnalyticsRecord) : List AnalyticsRecord :=
  if hasAnalyticsId store r.earthquake_id then
    store.map (fun old =>
      if old.earthquake_id == r.earthquake_id then
        { old with transformed_at := r.transformed_at }
      else old)
  else store ++ [r]

/-- The trailing-window predicate of `transform_sql`
(`WHERE extracted_at >= NOW() - INTERVAL '2 days'`, line 203). -/
def inWindow (now : Int) (r : RawRow) : Bool :=
  decide (now - 172800 ≤ r.extracted_at)

/-- The whole `transform_sql` statement: derive every raw row whose
`extracted_at` lies in the trailing 2-day window and upsert it into the
analytics store. -/
def runTransform (raw : List RawRow) (analytics : List AnalyticsRecord)
    (now : Int) : List AnalyticsRecord :=
  ((raw.filter (inWindow now)).map (fun r => derive r.raw_json now)).foldl
    upsertAnalytics analytics

/-- Whitespace trimming on both ends of a character list. -/
def trimWS (l : List Char) : List Char :=
  ((l.dropWhile Char.isWhitespace).reverse.dropWhile Char.isWhitespace).reverse

/-- Modelled from the spec: the spec's region rule ("the text following
the final comma in the place description, trimmed") — stated only to
compare against the code's `regionOf`, which does not trim. -/
def regionSpec (place : String) : String :=
  ⟨trimWS (lastField (splitOnComma place.data))⟩

/- ## Concrete sample inputs used by witnesses -/

/-- The analytics row with every derived field blanked; only a default
for out-of-range list reads, never stored. -/
def blankRecord : AnalyticsRecord :=
  ⟨"", 0, 0, 0, 0, 0, "", "", "", "", "", "", "", "", 0, 0⟩

/-- An analytics row with its `transformed_at` reset, for stating that
two rows agree on everything but `transformed_at`. -/
def eraseT (r : AnalyticsRecord) : AnalyticsRecord :=
  { r with transformed_at := 0 }

/-- A concrete feed payload with the given id, magnitude, depth and
place. -/
def samplePayload (id : String) (mag depth : ℚ) (place : String) :
    FeaturePayload :=
  { id := id, time := 1700000000000, mag := mag, magType := "mb",
    place := place, longitude := -100, latitude := 20, depth := depth }

/-- A concrete quake used by the transform witnesses. -/
def sampleQuake : FeaturePayload :=
  samplePayload "us1000abcd" (13 / 2) 50 "10km SW of Mexico City, Mexico"

/-- A one-row raw store holding `sampleQuake`, extracted at time 100. -/
def sampleRawStore : List RawRow :=
  [⟨"us1000abcd", sampleQuake, "USGS API", 100⟩]

/-- A one-row analytics store holding the derivation of `sampleQuake`
from an earlier transform run at time 5. -/
def sampleAnalytics : List AnalyticsRecord :=
  [derive sampleQuake 5]

end EarthquakeELT

namespace EarthquakeELT

/- ## Loader lemmas -/

/-- After an `ON CONFLICT DO NOTHING` insert the store holds the row's id. -/
lemma hasRawId_insert_self (s : List RawRow) (r : RawRow) :
    hasRawId (insertRawNoConflict s r).1 r.earthquake_id = true := by
  unfold insertRawNoConflict
  split
  · assumption
  · simp [hasRawId, List.any_append]

/-- An `ON CONFLICT DO NOTHING` insert never removes an id. -/
lemma hasRawId_insert_mono (s : List RawRow) (r : RawRow) (i : String)
    (h : hasRawId s i = true) :
    hasRawId (insertRawNoConflict s r).1 i = true := by
  unfold insertRawNoConflict
  split
  · exact h
  · simp only [hasRawId, List.any_append] at h ⊢
    simp [h]

/-- The insert loop never removes an id. -/
lemma loadBatch_mono (fs : List FeaturePayload) :
    ∀ (s : List RawRow) (now : Int) (i : String),
      hasRawId s i = true → hasRawId (loadBatch s fs now).1 i = true := by
  induction fs with
  | nil => intro s now i h; exact h
  | cons f rest ih =>
    intro s now i h
    simp only [loadBatch]
    exact ih _ now i (hasRawId_insert_mono s _ i h)

/-- After the insert loop every feature id of the batch is present. -/
lemma loadBatch_has (fs : List FeaturePayload) :
    ∀ (s : List RawRow) (now : Int) (f : FeaturePayload), f ∈ fs →
      hasRawId (loadBatch s fs now).1 f.id = true := by
  induction fs with
  | nil => intro s now f hf; cases hf
  | cons g rest ih =>
    intro s now f hf
    simp only [loadBatch]
    rcases List.mem_cons.mp hf with heq | hmem
    · subst heq
      exact loadBatch_mono rest _ now f.id
        (hasRawId_insert_self s ⟨f.id, f, "USGS API", now⟩)
    · exact ih _ now f hmem

/-- When every feature id of a batch is already present, the insert
loop changes nothing and counts zero newly inserted rows. -/
lemma loadBatch_stable (fs : List FeaturePayload) :
    ∀ (s : List RawRow) (now : Int),
      (∀ f ∈ fs, hasRawId s f.id = true) → loadBatch s fs now = (s, 0) := by
  induction fs with
  | nil => intro s now _; rfl
  | cons f rest ih =>
    intro s now h
    have hf : hasRawId s f.id = true := h f (List.mem_cons_self f rest)
    have hstep : insertRawNoConflict s ⟨f.id, f, "USGS API", now⟩ = (s, 0) := by
      unfold insertRawNoConflict
      rw [if_pos hf]
    have hrest := ih s now (fun g hg => h g (List.mem_cons_of_mem f hg))
    simp [loadBatch, hstep, hrest]

/-- C1: Idempotent load — loading the identical batch a second time
after a successful first load leaves the Raw Store unchanged (no row
added, no stored payload overwritten) and the second invocation's
Ledger row and return value record `records_loaded = 0`. -/
theorem load_idempotent (fs : List FeaturePayload) (s₀ : List RawRow)
    (l₀ : List LoadAttempt) (now₁ now₂ : Int) :
    (load_raw_data (.features fs)
        (load_raw_data (.features fs) s₀ l₀ now₁ none false).store
        (load_raw_data (.features fs) s₀ l₀ now₁ none false).ledger
        now₂ none false).store =
      (load_raw_data (.features fs) s₀ l₀ now₁ none false).store ∧
    (load_raw_data (.features fs)
        (load_raw_data (.features fs) s₀ l₀ now₁ none false).store
        (load_raw_data (.features fs) s₀ l₀ now₁ none false).ledger
        now₂ none false).ledger =
      (load_raw_data (.features fs) s₀ l₀ now₁ none false).ledger ++
        [⟨now₂, 0, "SUCCESS", none⟩] ∧
    (load_raw_data (.features fs)
        (load_raw_data (.features fs) s₀ l₀ now₁ none false).store
        (load_raw_data (.features fs) s₀ l₀ now₁ none false).ledger
        now₂ none false).outcome = .ok 0 := by
  have key : loadBatch (loadBatch s₀ fs now₁).1 fs now₂ =
      ((loadBatch s₀ fs now₁).1, 0) :=
    loadBatch_stable fs (loadBatch s₀ fs now₁).1 now₂
      (fun f hf => loadBatch_has fs s₀ now₁ f hf)
  simp [load_raw_data, key]

/-- C4 counterexample: a Loader invocation whose pulled data is missing
appends no Ledger row at all (lines 78-80 return before the
`load_history` insert), so not every invocation appends exactly one. -/
theorem loader_missing_data_appends_no_row :
    (load_raw_data .missing [] [] 0 none false).ledger.length ≠ 1 := by
  decide

/-- C4 amended: a Loader invocation whose data carries a `features` key
appends exactly one Ledger row — SUCCESS with the count of newly
inserted rows when the batch commits (also for an empty features list),
or FAILED with the error message when the batch fails and the ledger
write itself succeeds — while an invocation with missing data or
without a `features` key appends none and returns 0. -/
theorem loader_ledger_bookkeeping (s : List RawRow)
    (l : List LoadAttempt) (fs : List FeaturePayload) (now : Int)
    (e : String) :
    (load_raw_data (.features fs) s l now none false).ledger =
      l ++ [⟨now, (loadBatch s fs now).2, "SUCCESS", none⟩] ∧
    (load_raw_data (.features fs) s l now (some e) false).ledger =
      l ++ [⟨now, 0, "FAILED", some e⟩] ∧
    (load_raw_data .missing s l now none false).ledger = l ∧
    (load_raw_data .missing s l now none false).outcome = .ok 0 ∧
    (load_raw_data .noFeatures s l now none false).ledger = l ∧
    (load_raw_data .noFeatures s l now none false).outcome = .ok 0 := by
  simp [load_raw_data]

/-- C5: Loader failure path — when the batch fails with error `e`, the
batch aborts (store unchanged), a FAILED Ledger row carrying `e` is
written when the ledger write succeeds, a failing ledger write is
swallowed (ledger unchanged), and in either case the original error `e`
is the one propagated. -/
theorem loader_failure_propagates_original_error (s : List RawRow)
    (l : List LoadAttempt) (fs : List FeaturePayload) (now : Int)
    (e : String) (b : Bool) :
    (load_raw_data (.features fs) s l now (some e) b).outcome =
      .error e ∧
    (load_raw_data (.features fs) s l now (some e) b).store = s ∧
    (b = false →
      (load_raw_data (.features fs) s l now (some e) b).ledger =
        l ++ [⟨now, 0, "FAILED", some e⟩]) ∧
    (b = true →
      (load_raw_data (.features fs) s l now (some e) b).ledger = l) := by
  refine ⟨rfl, rfl, fun hb => ?_, fun hb => ?_⟩ <;>
    simp [load_raw_data, hb]

/-- C5 witness: the failure path evaluated on a concrete invocation,
with the ledger write succeeding and with it failing. -/
theorem loader_failure_propagates_original_error_witness :
    (load_raw_data (.features []) [] [] 7 (some "db down") false).outcome =
      .error "db down" ∧
    (load_raw_data (.features []) [] [] 7 (some "db down") false).ledger =
      [] ++ [⟨7, 0, "FAILED", some "db down"⟩] ∧
    (load_raw_data (.features []) [] [] 7 (some "db down") true).ledger =
      [] :=
  ⟨(loader_failure_propagates_original_error [] [] [] 7 "db down" false).1,
   (loader_failure_propagates_original_error [] [] [] 7 "db down"
      false).2.2.1 rfl,
   (loader_failure_propagates_original_error [] [] [] 7 "db down"
      true).2.2.2 rfl⟩

end EarthquakeELT

namespace EarthquakeELT

/- ## Region lemmas (SPLIT_PART semantics) -/

/-- Splitting never yields an empty field list. -/
lemma splitOnComma_ne_nil (l : List Char) : splitOnComma l ≠ [] := by
  induction l with
  | nil => simp [splitOnComma]
  | cons c cs ih =>
    rcases h : splitOnComma cs with _ | ⟨f, rest⟩
    · exact absurd h ih
    · simp only [splitOnComma, h]
      split <;> simp

/-- A comma-free list splits into the single field holding it whole. -/
lemma splitOnComma_no_comma (l : List Char) (h : ',' ∉ l) :
    splitOnComma l = [l] := by
  induction l with
  | nil => rfl
  | cons c cs ih =>
    have hc : c ≠ ',' := fun hc => h (hc ▸ List.mem_cons_self c cs)
    have hcs : ',' ∉ cs := fun hm => h (List.mem_cons_of_mem c hm)
    simp [splitOnComma, ih hcs, hc]

/-- A list containing a comma splits into at least two fields. -/
lemma two_le_splitOnComma_length (l : List Char) (h : ',' ∈ l) :
    2 ≤ (splitOnComma l).length := by
  induction l with
  | nil => cases h
  | cons c cs ih =>
    rcases hs : splitOnComma cs with _ | ⟨f, rest⟩
    · exact absurd hs (splitOnComma_ne_nil cs)
    · by_cases hc : c = ','
      · simp [splitOnComma, hs, hc]
      · have hm : ',' ∈ cs := by
          rcases List.mem_cons.mp h with h1 | h1
          · exact absurd h1.symm hc
          · exact h1
        have := ih hm
        rw [hs] at this
        simp only [splitOnComma, hs, if_neg hc]
        simpa using this

/-- One unfolding step of `splitOnComma`. -/
lemma splitOnComma_cons (c : Char) (cs : List Char) :
    splitOnComma (c :: cs) =
      match splitOnComma cs with
      | [] => [[]]
      | f :: rest => if c = ',' then [] :: f :: rest
                     else (c :: f) :: rest := rfl

/-- The last field of a split is unchanged by anything before the
final comma. -/
lemma lastField_append_comma (a b : List Char) :
    lastField (splitOnComma (a ++ ',' :: b)) =
      lastField (splitOnComma b) := by
  induction a with
  | nil =>
    rcases hs : splitOnComma b with _ | ⟨f, rest⟩
    · exact absurd hs (splitOnComma_ne_nil b)
    · simp [splitOnComma, hs, lastField]
  | cons c a' ih =>
    rcases hs : splitOnComma (a' ++ ',' :: b) with _ | ⟨f, rest⟩
    · exact absurd hs (splitOnComma_ne_nil _)
    · have hm : ',' ∈ a' ++ ',' :: b := by
        simp
      have h2 := two_le_splitOnComma_length _ hm
      rw [hs] at h2
      rcases rest with _ | ⟨r, rs⟩
      · simp at h2
      · rw [hs] at ih
        by_cases hc : c = ','
        · simp only [List.cons_append, splitOnComma_cons, hs, hc,
            if_true, eq_self_iff_true]
          simpa [lastField] using ih
        · simp only [List.cons_append, splitOnComma_cons, hs, hc,
            if_false]
          simpa [lastField] using ih

/-- C3 counterexample: for the place `"10km SW of Mexico City, Mexico"`
the code's derived region is `" Mexico"` — the text after the final
comma with its leading space kept — while the claim's trimmed rule
gives `"Mexico"`; the two disagree. -/
theorem region_not_trimmed :
    (derive (samplePayload "ex1" 4 10 "10km SW of Mexico City, Mexico")
        0).region = " Mexico" ∧
    regionSpec "10km SW of Mexico City, Mexico" = "Mexico" ∧
    (derive (samplePayload "ex1" 4 10 "10km SW of Mexico City, Mexico")
        0).region ≠
      regionSpec "10km SW of Mexico City, Mexico" := by
  refine ⟨rfl, rfl, ?_⟩
  decide

/-- C3 amended: the derived region equals the text following the final
comma of the place description exactly as it appears, without
whitespace trimming; for a place with no comma, the region is the
whole place string. -/
theorem region_after_final_comma (p : FeaturePayload) (now : Int)
    (a b : List Char) :
    (p.place.data = a ++ ',' :: b → ',' ∉ b →
      (derive p now).region = String.mk b) ∧
    (',' ∉ p.place.data → (derive p now).region = p.place) := by
  constructor
  · intro hsplit hb
    show regionOf p.place = String.mk b
    unfold regionOf
    rw [hsplit, lastField_append_comma, splitOnComma_no_comma b hb]
    rfl
  · intro hnc
    show regionOf p.place = p.place
    unfold regionOf
    rw [splitOnComma_no_comma _ hnc]
    rfl

/-- C3 amended witness: the untrimmed-region rule evaluated on a place
with a final comma and on a comma-free place. -/
theorem region_after_final_comma_witness :
    (derive (samplePayload "ex1" 4 10 "10km SW of Mexico City, Mexico")
        0).region = String.mk [' ', 'M', 'e', 'x', 'i', 'c', 'o'] ∧
    (derive (samplePayload "ex2" 4 10 "5km N of Nowhereville") 0).region =
      (samplePayload "ex2" 4 10 "5km N of Nowhereville").place :=
  ⟨(region_after_final_comma
      (samplePayload "ex1" 4 10 "10km SW of Mexico City, Mexico") 0
      ("10km SW of Mexico City".data) (" Mexico".data)).1
      (by decide) (by decide),
   (region_after_final_comma
      (samplePayload "ex2" 4 10 "5km N of Nowhereville") 0 [] []).2
      (by decide)⟩

end EarthquakeELT

namespace EarthquakeELT

/- ## Transform Engine lemmas -/

/-- Key membership after one upsert: the old ids plus the new row's id. -/
lemma hasAnalyticsId_upsert (a : List AnalyticsRecord)
    (r : AnalyticsRecord) (i : String) :
    hasAnalyticsId (upsertAnalytics a r) i =
      (hasAnalyticsId a i || (r.earthquake_id == i)) := by
  by_cases hconf : hasAnalyticsId a r.earthquake_id = true
  · have hu : upsertAnalytics a r = a.map (fun old =>
        if old.earthquake_id == r.earthquake_id then
          { old with transformed_at := r.transformed_at }
        else old) := by
      unfold upsertAnalytics
      rw [if_pos hconf]
    rw [hu]
    simp only [hasAnalyticsId, List.any_map]
    have hfun : ((fun q : AnalyticsRecord => q.earthquake_id == i) ∘
        (fun old : AnalyticsRecord =>
          if old.earthquake_id == r.earthquake_id then
            { old with transformed_at := r.transformed_at }
          else old)) =
        (fun q : AnalyticsRecord => q.earthquake_id == i) := by
      funext q
      by_cases hq : (q.earthquake_id == r.earthquake_id) = true
      · simp [Function.comp, hq]
      · simp [Function.comp, hq]
    rw [hfun]
    cases hri : r.earthquake_id == i with
    | false => simp
    | true =>
      have hri2 : r.earthquake_id = i := by
        simpa using hri
      have hy : a.any (fun q => q.earthquake_id == i) = true := by
        simp only [hasAnalyticsId] at hconf
        rw [← hri2]
        exact hconf
      simp [hy]
  · have hu : upsertAnalytics a r = a ++ [r] := by
      unfold upsertAnalytics
      rw [if_neg hconf]
    rw [hu]
    simp [hasAnalyticsId, List.any_append]

/-- Key membership after folding upserts over a list of derived rows. -/
lemma hasAnalyticsId_foldl (rs : List AnalyticsRecord) :
    ∀ (a : List AnalyticsRecord) (i : String),
      hasAnalyticsId (rs.foldl upsertAnalytics a) i =
        (hasAnalyticsId a i || rs.any (fun r => r.earthquake_id == i)) := by
  induction rs with
  | nil => intro a i; simp
  | cons r rest ih =>
    intro a i
    simp only [List.foldl_cons, List.any_cons]
    rw [ih, hasAnalyticsId_upsert]
    cases hasAnalyticsId a i <;> cases (r.earthquake_id == i) <;> simp

/-- An upsert never removes rows. -/
lemma length_le_upsert (a : List AnalyticsRecord) (r : AnalyticsRecord) :
    a.length ≤ (upsertAnalytics a r).length := by
  unfold upsertAnalytics
  split <;> simp

/-- Folded upserts never remove rows. -/
lemma length_le_foldl_upsert (rs : List AnalyticsRecord) :
    ∀ a : List AnalyticsRecord,
      a.length ≤ (rs.foldl upsertAnalytics a).length := by
  induction rs with
  | nil => intro a; exact Nat.le_refl _
  | cons r rest ih =>
    intro a
    exact Nat.le_trans (length_le_upsert a r) (ih (upsertAnalytics a r))

/-- One upsert leaves every pre-existing row in place up to its
`transformed_at` field. -/
lemma eraseT_upsert_get (a : List AnalyticsRecord) (r : AnalyticsRecord)
    (i : Nat) (hi : i < a.length) :
    ∃ hj : i < (upsertAnalytics a r).length,
      eraseT ((upsertAnalytics a r).get ⟨i, hj⟩) = eraseT (a.get ⟨i, hi⟩) := by
  by_cases hconf : hasAnalyticsId a r.earthquake_id = true
  · have hu : upsertAnalytics a r = a.map (fun old =>
        if old.earthquake_id == r.earthquake_id then
          { old with transformed_at := r.transformed_at }
        else old) := by
      unfold upsertAnalytics
      rw [if_pos hconf]
    rw [hu]
    refine ⟨by simpa using hi, ?_⟩
    simp only [List.get_eq_getElem, List.getElem_map]
    split <;> rfl
  · have hu : upsertAnalytics a r = a ++ [r] := by
      unfold upsertAnalytics
      rw [if_neg hconf]
    rw [hu]
    have hj : i < (a ++ [r]).length := by
      simp only [List.length_append, List.length_cons, List.length_nil]
      omega
    refine ⟨hj, ?_⟩
    simp only [List.get_eq_getElem]
    rw [List.getElem_append_left hi]

/-- Folded upserts leave every pre-existing row in place up to its
`transformed_at` field. -/
lemma eraseT_foldl_get (rs : List AnalyticsRecord) :
    ∀ (a : List AnalyticsRecord) (i : Nat) (hi : i < a.length),
      ∃ hj : i < (rs.foldl upsertAnalytics a).length,
        eraseT ((rs.foldl upsertAnalytics a).get ⟨i, hj⟩) =
          eraseT (a.get ⟨i, hi⟩) := by
  induction rs with
  | nil => intro a i hi; exact ⟨hi, rfl⟩
  | cons r rest ih =>
    intro a i hi
    obtain ⟨h1, e1⟩ := eraseT_upsert_get a r i hi
    obtain ⟨h2, e2⟩ := ih (upsertAnalytics a r) i h1
    exact ⟨h2, e2.trans e1⟩

end EarthquakeELT

namespace EarthquakeELT

/-- C2: Transform frame property — re-running the Transform Engine over
any window leaves every pre-existing Analytics row in place with all
its fields other than `transformed_at` (earthquake_id, occurred_at,
latitude, longitude, depth_km, magnitude, magnitude_type, place,
country, region, magnitude_category, depth_category, risk_level,
day_of_week, hour_of_day) unchanged; only `transformed_at` may move. -/
theorem transform_updates_only_transformed_at
    (raw : List RawRow) (analytics : List AnalyticsRecord) (now : Int)
    (i : Nat) (hi : i < analytics.length) :
    analytics.length ≤ (runTransform raw analytics now).length ∧
    ((runTransform raw analytics now).getD i blankRecord).earthquake_id =
      (analytics.getD i blankRecord).earthquake_id ∧
    ((runTransform raw analytics now).getD i blankRecord).occurred_at =
      (analytics.getD i blankRecord).occurred_at ∧
    ((runTransform raw analytics now).getD i blankRecord).latitude =
      (analytics.getD i blankRecord).latitude ∧
    ((runTransform raw analytics now).getD i blankRecord).longitude =
      (analytics.getD i blankRecord).longitude ∧
    ((runTransform raw analytics now).getD i blankRecord).depth_km =
      (analytics.getD i blankRecord).depth_km ∧
    ((runTransform raw analytics now).getD i blankRecord).magnitude =
      (analytics.getD i blankRecord).magnitude ∧
    ((runTransform raw analytics now).getD i blankRecord).magnitude_type =
      (analytics.getD i blankRecord).magnitude_type ∧
    ((runTransform raw analytics now).getD i blankRecord).place =
      (analytics.getD i blankRecord).place ∧
    ((runTransform raw analytics now).getD i blankRecord).country =
      (analytics.getD i blankRecord).country ∧
    ((runTransform raw analytics now).getD i blankRecord).region =
      (analytics.getD i blankRecord).region ∧
    ((runTransform raw analytics now).getD i blankRecord).magnitude_category =
      (analytics.getD i blankRecord).magnitude_category ∧
    ((runTransform raw analytics now).getD i blankRecord).depth_category =
      (analytics.getD i blankRecord).depth_category ∧
    ((runTransform raw analytics now).getD i blankRecord).risk_level =
      (analytics.getD i blankRecord).risk_level ∧
    ((runTransform raw analytics now).getD i blankRecord).day_of_week =
      (analytics.getD i blankRecord).day_of_week ∧
    ((runTransform raw analytics now).getD i blankRecord).hour_of_day =
      (analytics.getD i blankRecord).hour_of_day := by
  have hlen : analytics.length ≤ (runTransform raw analytics now).length :=
    length_le_foldl_upsert _ analytics
  obtain ⟨hj, he⟩ := eraseT_foldl_get
    ((raw.filter (inWindow now)).map (fun r => derive r.raw_json now))
    analytics i hi
  have hj2 : i < (runTransform raw analytics now).length := hj
  have he2 : eraseT ((runTransform raw analytics now).get ⟨i, hj2⟩) =
      eraseT (analytics.get ⟨i, hi⟩) := he
  have hgd : (runTransform raw analytics now).getD i blankRecord =
      (runTransform raw analytics now).get ⟨i, hj2⟩ := by
    rw [List.getD_eq_getElem _ _ hj2]
    simp [List.get_eq_getElem]
  have hga : analytics.getD i blankRecord = analytics.get ⟨i, hi⟩ := by
    rw [List.getD_eq_getElem _ _ hi]
    simp [List.get_eq_getElem]
  have hmain : eraseT ((runTransform raw analytics now).getD i blankRecord) =
      eraseT (analytics.getD i blankRecord) := by
    rw [hgd, hga]
    exact he2
  have h01 := congrArg AnalyticsRecord.earthquake_id hmain
  have h02 := congrArg AnalyticsRecord.occurred_at hmain
  have h03 := congrArg AnalyticsRecord.latitude hmain
  have h04 := congrArg AnalyticsRecord.longitude hmain
  have h05 := congrArg AnalyticsRecord.depth_km hmain
  have h06 := congrArg AnalyticsRecord.magnitude hmain
  have h07 := congrArg AnalyticsRecord.magnitude_type hmain
  have h08 := congrArg AnalyticsRecord.place hmain
  have h09 := congrArg AnalyticsRecord.country hmain
  have h10 := congrArg AnalyticsRecord.region hmain
  have h11 := congrArg AnalyticsRecord.magnitude_category hmain
  have h12 := congrArg AnalyticsRecord.depth_category hmain
  have h13 := congrArg AnalyticsRecord.risk_level hmain
  have h14 := congrArg AnalyticsRecord.day_of_week hmain
  have h15 := congrArg AnalyticsRecord.hour_of_day hmain
  exact ⟨hlen, h01, h02, h03, h04, h05, h06, h07, h08, h09, h10, h11,
    h12, h13, h14, h15⟩

/-- C2 witness: the frame property evaluated on a one-row analytics
store whose row is re-derived by a later transform run over a raw
window containing the same earthquake id. -/
theorem transform_updates_only_transformed_at_witness :
    sampleAnalytics.length ≤
      (runTransform sampleRawStore sampleAnalytics 100).length ∧
    ((runTransform sampleRawStore sampleAnalytics 100).getD 0
        blankRecord).earthquake_id =
      (sampleAnalytics.getD 0 blankRecord).earthquake_id ∧
    ((runTransform sampleRawStore sampleAnalytics 100).getD 0
        blankRecord).occurred_at =
      (sampleAnalytics.getD 0 blankRecord).occurred_at ∧
    ((runTransform sampleRawStore sampleAnalytics 100).getD 0
        blankRecord).latitude =
      (sampleAnalytics.getD 0 blankRecord).latitude ∧
    ((runTransform sampleRawStore sampleAnalytics 100).getD 0
        blankRecord).longitude =
      (sampleAnalytics.getD 0 blankRecord).longitude ∧
    ((runTransform sampleRawStore sampleAnalytics 100).getD 0
        blankRecord).depth_km =
      (sampleAnalytics.getD 0 blankRecord).depth_km ∧
    ((runTransform sampleRawStore sampleAnalytics 100).getD 0
        blankRecord).magnitude =
      (sampleAnalytics.getD 0 blankRecord).magnitude ∧
    ((runTransform sampleRawStore sampleAnalytics 100).getD 0
        blankRecord).magnitude_type =
      (sampleAnalytics.getD 0 blankRecord).magnitude_type ∧
    ((runTransform sampleRawStore sampleAnalytics 100).getD 0
        blankRecord).place =
      (sampleAnalytics.getD 0 blankRecord).place ∧
    ((runTransform sampleRawStore sampleAnalytics 100).getD 0
        blankRecord).country =
      (sampleAnalytics.getD 0 blankRecord).country ∧
    ((runTransform sampleRawStore sampleAnalytics 100).getD 0
        blankRecord).region =
      (sampleAnalytics.getD 0 blankRecord).region ∧
    ((runTransform sampleRawStore sampleAnalytics 100).getD 0
        blankRecord).magnitude_category =
      (sampleAnalytics.getD 0 blankRecord).magnitude_category ∧
    ((runTransform sampleRawStore sampleAnalytics 100).getD 0
        blankRecord).depth_category =
      (sampleAnalytics.getD 0 blankRecord).depth_category ∧
    ((runTransform sampleRawStore sampleAnalytics 100).getD 0
        blankRecord).risk_level =
      (sampleAnalytics.getD 0 blankRecord).risk_level ∧
    ((runTransform sampleRawStore sampleAnalytics 100).getD 0
        blankRecord).day_of_week =
      (sampleAnalytics.getD 0 blankRecord).day_of_week ∧
    ((runTransform sampleRawStore sampleAnalytics 100).getD 0
        blankRecord).hour_of_day =
      (sampleAnalytics.getD 0 blankRecord).hour_of_day :=
  transform_updates_only_transformed_at sampleRawStore sampleAnalytics
    100 0 (by decide)

/-- C8: Trailing-window selection — after a transform run at time
`now`, an id is present in the Analytics Store exactly when it was
already present or some raw row inside the trailing 2-day window
(`extracted_at ≥ now - 172800` seconds) carries it; raw rows older
than the window contribute nothing, so the run is equivalent to one
over the window-filtered raw store. -/
theorem transform_window_selection (raw : List RawRow)
    (analytics : List AnalyticsRecord) (now : Int) (id : String) :
    (hasAnalyticsId (runTransform raw analytics now) id = true ↔
      hasAnalyticsId analytics id = true ∨
        ∃ r ∈ raw, now - 172800 ≤ r.extracted_at ∧ r.raw_json.id = id) ∧
    runTransform raw analytics now =
      runTransform (raw.filter (inWindow now)) analytics now := by
  constructor
  · unfold runTransform
    rw [hasAnalyticsId_foldl]
    simp only [Bool.or_eq_true, List.any_eq_true, List.mem_map,
      List.mem_filter, inWindow, decide_eq_true_eq, derive, beq_iff_eq]
    constructor
    · rintro (h | ⟨q, ⟨r, ⟨hr, hw⟩, hq⟩, hid⟩)
      · exact Or.inl h
      · subst hq
        exact Or.inr ⟨r, hr, hw, hid⟩
    · rintro (h | ⟨r, hr, hw, hid⟩)
      · exact Or.inl h
      · exact Or.inr ⟨derive r.raw_json now, ⟨r, ⟨hr, hw⟩, rfl⟩, hid⟩
  · unfold runTransform
    rw [List.filter_filter]
    simp

end EarthquakeELT

namespace EarthquakeELT

/-- C6: Magnitude classification — the derived `magnitude_category`
follows the ordered threshold ladder: Minor below 3.0, else Light below
5.0, else Moderate below 6.0, else Strong below 7.0, else Major. -/
theorem magnitude_classification (p : FeaturePayload) (now : Int) :
    (p.mag < 3 → (derive p now).magnitude_category = "Minor") ∧
    (3 ≤ p.mag → p.mag < 5 →
      (derive p now).magnitude_category = "Light") ∧
    (5 ≤ p.mag → p.mag < 6 →
      (derive p now).magnitude_category = "Moderate") ∧
    (6 ≤ p.mag → p.mag < 7 →
      (derive p now).magnitude_category = "Strong") ∧
    (7 ≤ p.mag → (derive p now).magnitude_category = "Major") := by
  refine ⟨fun h1 => ?_, fun h1 h2 => ?_, fun h1 h2 => ?_,
    fun h1 h2 => ?_, fun h1 => ?_⟩
  · simp [derive, magnitudeCategory, h1]
  · simp [derive, magnitudeCategory, not_lt.mpr h1, h2]
  · have g3 : ¬ p.mag < 3 := not_lt.mpr (le_trans (by norm_num) h1)
    have g5 : ¬ p.mag < 5 := not_lt.mpr h1
    simp [derive, magnitudeCategory, g3, g5, h2]
  · have g3 : ¬ p.mag < 3 := not_lt.mpr (le_trans (by norm_num) h1)
    have g5 : ¬ p.mag < 5 := not_lt.mpr (le_trans (by norm_num) h1)
    have g6 : ¬ p.mag < 6 := not_lt.mpr h1
    simp [derive, magnitudeCategory, g3, g5, g6, h2]
  · have g3 : ¬ p.mag < 3 := not_lt.mpr (le_trans (by norm_num) h1)
    have g5 : ¬ p.mag < 5 := not_lt.mpr (le_trans (by norm_num) h1)
    have g6 : ¬ p.mag < 6 := not_lt.mpr (le_trans (by norm_num) h1)
    have g7 : ¬ p.mag < 7 := not_lt.mpr h1
    simp [derive, magnitudeCategory, g3, g5, g6, g7]

/-- C6 witness: the ladder evaluated at magnitudes 2.9, 4.9, 5.9, 6.9
and 7.5. -/
theorem magnitude_classification_witness :
    (derive (samplePayload "w1" 2.9 10 "A") 0).magnitude_category =
      "Minor" ∧
    (derive (samplePayload "w2" 4.9 10 "A") 0).magnitude_category =
      "Light" ∧
    (derive (samplePayload "w3" 5.9 10 "A") 0).magnitude_category =
      "Moderate" ∧
    (derive (samplePayload "w4" 6.9 10 "A") 0).magnitude_category =
      "Strong" ∧
    (derive (samplePayload "w5" 7.5 10 "A") 0).magnitude_category =
      "Major" :=
  ⟨(magnitude_classification (samplePayload "w1" 2.9 10 "A") 0).1
      (by norm_num [samplePayload]),
   (magnitude_classification (samplePayload "w2" 4.9 10 "A") 0).2.1
      (by norm_num [samplePayload]) (by norm_num [samplePayload]),
   (magnitude_classification (samplePayload "w3" 5.9 10 "A") 0).2.2.1
      (by norm_num [samplePayload]) (by norm_num [samplePayload]),
   (magnitude_classification (samplePayload "w4" 6.9 10 "A") 0).2.2.2.1
      (by norm_num [samplePayload]) (by norm_num [samplePayload]),
   (magnitude_classification (samplePayload "w5" 7.5 10 "A") 0).2.2.2.2
      (by norm_num [samplePayload])⟩

/-- C7: Risk classification — the derived `risk_level` is High when
magnitude ≥ 6.0 and depth < 70, else Medium when magnitude ≥ 5.0, else
Low. -/
theorem risk_classification (p : FeaturePayload) (now : Int) :
    (6 ≤ p.mag → p.depth < 70 → (derive p now).risk_level = "High") ∧
    (5 ≤ p.mag → ¬(6 ≤ p.mag ∧ p.depth < 70) →
      (derive p now).risk_level = "Medium") ∧
    (p.mag < 5 → (derive p now).risk_level = "Low") := by
  refine ⟨fun h1 h2 => ?_, fun h1 h2 => ?_, fun h1 => ?_⟩
  · simp [derive, riskLevel, h1, h2]
  · simp [derive, riskLevel, h1, h2]
  · have g5 : ¬ 5 ≤ p.mag := not_le.mpr h1
    have g6 : ¬ (6 ≤ p.mag ∧ p.depth < 70) := by
      rintro ⟨h6, _⟩
      exact g5 (le_trans (by norm_num) h6)
    simp [derive, riskLevel, g5, g6]

/-- C7 witness: risk evaluated at (magnitude 6.5, depth 50) → High,
(5.5, 200) → Medium, (3, 10) → Low. -/
theorem risk_classification_witness :
    (derive (samplePayload "w1" 6.5 50 "A") 0).risk_level = "High" ∧
    (derive (samplePayload "w2" 5.5 200 "A") 0).risk_level = "Medium" ∧
    (derive (samplePayload "w3" 3 10 "A") 0).risk_level = "Low" :=
  ⟨(risk_classification (samplePayload "w1" 6.5 50 "A") 0).1
      (by norm_num [samplePayload]) (by norm_num [samplePayload]),
   (risk_classification (samplePayload "w2" 5.5 200 "A") 0).2.1
      (by norm_num [samplePayload]) (by norm_num [samplePayload]),
   (risk_classification (samplePayload "w3" 3 10 "A") 0).2.2
      (by norm_num [samplePayload])⟩

/-- C9: Country derivation — the derived country is the first match in
the fixed priority order Mexico, California → United States, Japan,
Chile of the case-sensitive substring rules over the place description,
and `Other` when none matches. -/
theorem country_priority (p : FeaturePayload) (now : Int) :
    (likeContains p.place "Mexico" = true →
      (derive p now).country = "Mexico") ∧
    (likeContains p.place "Mexico" = false →
      likeContains p.place "California" = true →
      (derive p now).country = "United States") ∧
    (likeContains p.place "Mexico" = false →
      likeContains p.place "California" = false →
      likeContains p.place "Japan" = true →
      (derive p now).country = "Japan") ∧
    (likeContains p.place "Mexico" = false →
      likeContains p.place "California" = false →
      likeContains p.place "Japan" = false →
      likeContains p.place "Chile" = true →
      (derive p now).country = "Chile") ∧
    (likeContains p.place "Mexico" = false →
      likeContains p.place "California" = false →
      likeContains p.place "Japan" = false →
      likeContains p.place "Chile" = false →
      (derive p now).country = "Other") := by
  refine ⟨fun h1 => ?_, fun h1 h2 => ?_, fun h1 h2 h3 => ?_,
    fun h1 h2 h3 h4 => ?_, fun h1 h2 h3 h4 => ?_⟩ <;>
    simp [derive, countryOf, *]

/-- C9 witness: a place holding both "California" and "Mexico" derives
Mexico (the higher-priority rule), and a place matching no rule derives
Other. -/
theorem country_priority_witness :
    (derive (samplePayload "w6" 4 10 "near California and Mexico border")
        0).country = "Mexico" ∧
    (derive (samplePayload "w7" 4 10 "5km N of Nowhereville")
        0).country = "Other" :=
  ⟨(country_priority
      (samplePayload "w6" 4 10 "near California and Mexico border") 0).1
      (by decide),
   (country_priority (samplePayload "w7" 4 10 "5km N of Nowhereville")
      0).2.2.2.2 (by decide) (by decide) (by decide) (by decide)⟩

/-- C10: the country substring rules are case-sensitive — a place that
contains a country name only in a different letter case (so none of
the exact strings "Mexico", "California", "Japan", "Chile" occur)
derives the country `Other`. -/
theorem country_case_sensitive (p : FeaturePayload) (now : Int)
    (hv : likeContains p.place "mexico" = true ∨
      likeContains p.place "MEXICO" = true ∨
      likeContains p.place "california" = true ∨
      likeContains p.place "CALIFORNIA" = true ∨
      likeContains p.place "japan" = true ∨
      likeContains p.place "JAPAN" = true ∨
      likeContains p.place "chile" = true ∨
      likeContains p.place "CHILE" = true)
    (hm : likeContains p.place "Mexico" = false)
    (hc : likeContains p.place "California" = false)
    (hj : likeContains p.place "Japan" = false)
    (hch : likeContains p.place "Chile" = false) :
    (derive p now).country = "Other" := by
  simp [derive, countryOf, hm, hc, hj, hch]

/-- C10 witness: the place "10km SW of mexico city, JAPAN" contains
"mexico" and "JAPAN" but none of the exact-case rule strings, and
derives Other. -/
theorem country_case_sensitive_witness :
    (derive (samplePayload "w8" 4 10 "10km SW of mexico city, JAPAN")
        0).country = "Other" :=
  country_case_sensitive
    (samplePayload "w8" 4 10 "10km SW of mexico city, JAPAN") 0
    (Or.inl (by decide)) (by decide) (by decide) (by decide) (by decide)

end EarthquakeELT
